import Mathlib

/-!
Verification of the Buffer Pool Manager core of InterchangeDB.

This file gives a shallow embedding, in Lean 4, of the buffer-pool layer of
the repository (src/buffer/replacer/fifo.rs, src/buffer/frame.rs,
src/buffer/page_guard.rs, src/buffer/buffer_pool_manager.rs and
src/storage/disk_manager.rs), and proves or refutes the frozen claims about
it.

Conventions of the embedding:
- `FrameId` and `PageId` become `Nat`.
- Rust `HashSet` fields become `Finset Nat`; `VecDeque` and `Vec` become
  `List Nat` (for the free-list stack, the head of the list is the top of
  the stack, i.e. the last element of the Rust `Vec`).
- The `HashMap<PageId, FrameId>` page table becomes an association list
  `List (Nat × Nat)`; its list order stands for the map's iteration order.
- Fallible operations return `Except Error _` paired with the post-state
  (in Rust the receiver is mutated in place even when `Err` is returned,
  so the post-state is always carried).
- Operations that panic (`assert!`) return `Option`.
- Page bytes become `List Nat`; `PAGE_SIZE` is 4096 as in
  src/common/config.rs, and a freshly zeroed page is
  `List.replicate 4096 0`.
- I/O faults of the environment are modelled by a `failWrite` predicate on
  the disk: `write_page` on a page id satisfying it returns an `Io` error
  and leaves the file unchanged.
-/

namespace InterchangeDB

/-- Error enumeration from src/error.rs (the variants the buffer pool uses).
`Io` abstracts the wrapped `std::io::Error`. -/
inductive Error where
  | Io : Error
  | PageNotFound : Nat → Error
  | NoFreeFrames : Error
  | InvalidPageId : Nat → Error
  | BufferPoolFull : Error
  | PageNotPinned : Nat → Error
deriving DecidableEq, Repr

instance {ε α : Type} [DecidableEq ε] [DecidableEq α] : DecidableEq (Except ε α) :=
  fun x y =>
    match x, y with
    | .ok a, .ok b =>
        if h : a = b then isTrue (by rw [h])
        else isFalse (by intro he; cases he; exact h rfl)
    | .ok _, .error _ => isFalse (by intro he; cases he)
    | .error _, .ok _ => isFalse (by intro he; cases he)
    | .error e, .error f =>
        if h : e = f then isTrue (by rw [h])
        else isFalse (by intro he; cases he; exact h rfl)

/-! ## FIFO replacer (src/buffer/replacer/fifo.rs) -/

/-- State of `FifoReplacer`: a queue of frame ids in first-access order
(front = oldest), the set of ids currently in the queue, and the set of
evictable ids. -/
structure FifoReplacer where
  queue : List Nat
  inQueue : Finset Nat
  evictable : Finset Nat
deriving DecidableEq

/-- `FifoReplacer::new`. -/
def FifoReplacer.new : FifoReplacer :=
  { queue := [], inQueue := ∅, evictable := ∅ }

/-- `FifoReplacer::record_access`: push to the back of the queue on first
access only (the unused `page_id` parameter of the Rust signature is
omitted). -/
def FifoReplacer.recordAccess (s : FifoReplacer) (frameId : Nat) : FifoReplacer :=
  if frameId ∈ s.inQueue then s
  else { s with queue := s.queue ++ [frameId], inQueue := insert frameId s.inQueue }

/-- `FifoReplacer::set_evictable`. -/
def FifoReplacer.setEvictable (s : FifoReplacer) (frameId : Nat) (ev : Bool) : FifoReplacer :=
  if ev then { s with evictable := insert frameId s.evictable }
  else { s with evictable := s.evictable.erase frameId }

/-- `FifoReplacer::evict`: find the first evictable frame in queue order and
remove only that frame from the queue and both sets; `none` when no queued
frame is evictable. -/
def FifoReplacer.evict (s : FifoReplacer) : Option Nat × FifoReplacer :=
  match s.queue.find? (fun fid => decide (fid ∈ s.evictable)) with
  | none => (none, s)
  | some fid =>
      (some fid,
        { queue := s.queue.erase fid,
          inQueue := s.inQueue.erase fid,
          evictable := s.evictable.erase fid })

/-- `FifoReplacer::remove`: purge all bookkeeping for a frame (the
evictable entry goes unconditionally; the queue is filtered only when the
frame was tracked in `in_queue`). -/
def FifoReplacer.remove (s : FifoReplacer) (frameId : Nat) : FifoReplacer :=
  if frameId ∈ s.inQueue then
    { queue := s.queue.filter (fun fid => fid ≠ frameId),
      inQueue := s.inQueue.erase frameId,
      evictable := s.evictable.erase frameId }
  else { s with evictable := s.evictable.erase frameId }

/-- `FifoReplacer::size`: number of evictable frames. -/
def FifoReplacer.size (s : FifoReplacer) : Nat :=
  s.evictable.card

/-! ## Page and Frame (src/storage/page/page.rs, src/buffer/frame.rs) -/

/-- `PAGE_SIZE` from src/common/config.rs. -/
def PAGE_SIZE : Nat := 4096

/-- A freshly created page is zero-filled (`Page::new`). -/
def pageZero : List Nat := List.replicate PAGE_SIZE 0

/-- A buffer frame (src/buffer/frame.rs): the page bytes, the identity of
the loaded page if any, the pin count and the dirty flag.  The rw-lock and
atomics are synchronization devices with no sequential content. -/
structure Frame where
  data : List Nat
  pageId : Option Nat
  pinCount : Nat
  dirty : Bool
deriving DecidableEq

/-- `Frame::new`: an empty zeroed frame. -/
def Frame.new : Frame :=
  { data := pageZero, pageId := none, pinCount := 0, dirty := false }

/-- `Frame::pin`: increment the pin count. -/
def Frame.pin (f : Frame) : Frame :=
  { f with pinCount := f.pinCount + 1 }

/-- `Frame::unpin` on a pin count: `fetch_sub(1)` followed by
`assert!(old > 0)`.  The panic on a zero count is modelled by `none`;
otherwise the new count `old - 1` is returned. -/
def Frame.unpinCount (pc : Nat) : Option Nat :=
  if 0 < pc then some (pc - 1) else none

/-- `Frame::is_evictable`: loaded and not pinned. -/
def Frame.isEvictable (f : Frame) : Bool :=
  f.pageId.isSome && decide (f.pinCount = 0)

/-! ## Disk manager (src/storage/disk_manager.rs) -/

/-- The disk manager: the backing file as a list of pages (`page_count` is
its length, and page `n` lives at index `n`), plus a fault model:
`failWrite pid = true` means the environment makes the write of page `pid`
fail with an I/O error. -/
structure DiskManager where
  pages : List (List Nat)
  failWrite : Nat → Bool

/-- `DiskManager::read_page`: `PageNotFound` beyond `page_count`, else the
stored bytes. -/
def DiskManager.readPage (dm : DiskManager) (pid : Nat) : Except Error (List Nat) :=
  if h : pid < dm.pages.length then .ok (dm.pages.get ⟨pid, h⟩)
  else .error (.PageNotFound pid)

/-- `DiskManager::write_page`: `PageNotFound` beyond `page_count`; an I/O
fault leaves the file unchanged; otherwise the slot is overwritten. -/
def DiskManager.writePage (dm : DiskManager) (pid : Nat) (data : List Nat) :
    Except Error DiskManager :=
  if pid < dm.pages.length then
    if dm.failWrite pid then .error .Io
    else .ok { dm with pages := dm.pages.set pid data }
  else .error (.PageNotFound pid)

/-- `DiskManager::allocate_page`: append one zeroed page, return its id
(the previous page count). -/
def DiskManager.allocatePage (dm : DiskManager) : Nat × DiskManager :=
  (dm.pages.length, { dm with pages := dm.pages ++ [pageZero] })

/-! ## Buffer pool manager (src/buffer/buffer_pool_manager.rs) -/

/-- The buffer pool state.  `frames` is total over `Nat` for convenience;
only indices below `poolSize` are ever touched.  The free list is a stack
whose head is the top (the last element of the Rust `Vec`).  The page table
is an association list looked up by `List.lookup`.  The lock-free stats
counters are not modelled (no claim mentions them). -/
structure BPM where
  poolSize : Nat
  frames : Nat → Frame
  pageTable : List (Nat × Nat)
  freeList : List Nat
  replacer : FifoReplacer
  disk : DiskManager

/-- Update one frame of the pool. -/
def BPM.setFrame (s : BPM) (fid : Nat) (f : Frame) : BPM :=
  { s with frames := fun i => if i = fid then f else s.frames i }

/-- `BufferPoolManager::new`: empty frames, all ids on the free list (the
Rust `Vec` is `[0, …, n-1]` with the top at the end, so the stack, head
first, is the reversed range). -/
def BPM.new (poolSize : Nat) (dm : DiskManager) : BPM :=
  { poolSize := poolSize,
    frames := fun _ => Frame.new,
    pageTable := [],
    freeList := (List.range poolSize).reverse,
    replacer := FifoReplacer.new,
    disk := dm }

/-- Insert a binding into the page table (`HashMap::insert`: replaces any
existing binding for the key). -/
def ptInsert (t : List (Nat × Nat)) (pid fid : Nat) : List (Nat × Nat) :=
  (pid, fid) :: t.filter (fun e => e.1 ≠ pid)

/-- Remove a key from the page table (`HashMap::remove`). -/
def ptRemove (t : List (Nat × Nat)) (pid : Nat) : List (Nat × Nat) :=
  t.filter (fun e => e.1 ≠ pid)

/-- `BufferPoolManager::flush_frame`: if the frame is dirty, write its bytes
to disk and clear the dirty flag; propagate write errors with the state
unchanged. -/
def BPM.flushFrame (s : BPM) (fid pid : Nat) : Except Error Unit × BPM :=
  if (s.frames fid).dirty then
    match s.disk.writePage pid (s.frames fid).data with
    | .error e => (.error e, s)
    | .ok dm' =>
        (.ok (), { s.setFrame fid { s.frames fid with dirty := false } with disk := dm' })
  else (.ok (), s)

/-- `BufferPoolManager::evict_page`: take a victim from the replacer
(`NoFreeFrames` when it has none); flush it if dirty and loaded, propagating
a flush error; then drop its page-table entry and clear its identity and
dirty flag, returning the freed frame id. -/
def BPM.evictPage (s : BPM) : Except Error Nat × BPM :=
  match s.replacer.evict with
  | (none, r') => (.error .NoFreeFrames, { s with replacer := r' })
  | (some fid, r') =>
      let s1 : BPM := { s with replacer := r' }
      let oldPid := (s1.frames fid).pageId
      let flushed : Except Error Unit × BPM :=
        if (s1.frames fid).dirty then
          match oldPid with
          | some pid => s1.flushFrame fid pid
          | none => (.ok (), s1)
        else (.ok (), s1)
      match flushed with
      | (.error e, s2) => (.error e, s2)
      | (.ok _, s2) =>
          let s3 : BPM :=
            match oldPid with
            | some pid => { s2 with pageTable := ptRemove s2.pageTable pid }
            | none => s2
          let s4 := s3.setFrame fid { s3.frames fid with dirty := false, pageId := none }
          (.ok fid, s4)

/-- `BufferPoolManager::get_free_frame`: pop the free list, else evict. -/
def BPM.getFreeFrame (s : BPM) : Except Error Nat × BPM :=
  match s.freeList with
  | fid :: rest => (.ok fid, { s with freeList := rest })
  | [] => s.evictPage

/-- `BufferPoolManager::handle_cache_hit`: pin the frame, record the access
and mark it non-evictable. -/
def BPM.handleCacheHit (s : BPM) (fid : Nat) : BPM :=
  let s1 := s.setFrame fid (s.frames fid).pin
  { s1 with replacer := (s1.replacer.recordAccess fid).setEvictable fid false }

/-- `BufferPoolManager::handle_cache_miss`: obtain a frame, read the page
from disk, copy the bytes in, set the identity, pin, insert into the page
table and update the replacer.  Errors propagate with the state reached so
far (in particular a failed disk read does not return the obtained frame to
the free list). -/
def BPM.handleCacheMiss (s : BPM) (pid : Nat) : Except Error Nat × BPM :=
  match s.getFreeFrame with
  | (.error e, s1) => (.error e, s1)
  | (.ok fid, s1) =>
      match s1.disk.readPage pid with
      | .error e => (.error e, s1)
      | .ok data =>
          let s2 := s1.setFrame fid
            { s1.frames fid with
              data := data
              pageId := some pid
              pinCount := (s1.frames fid).pinCount + 1 }
          let s3 : BPM := { s2 with pageTable := ptInsert s2.pageTable pid fid }
          let s4 : BPM :=
            { s3 with replacer := (s3.replacer.recordAccess fid).setEvictable fid false }
          (.ok fid, s4)

/-- `BufferPoolManager::fetch_page_internal`: page-table hit, else miss. -/
def BPM.fetchPageInternal (s : BPM) (pid : Nat) : Except Error Nat × BPM :=
  match s.pageTable.lookup pid with
  | some fid => (.ok fid, s.handleCacheHit fid)
  | none => s.handleCacheMiss pid

/-- `BufferPoolManager::fetch_page_read`: the returned guard is represented
by the frame id. -/
def BPM.fetchPageRead (s : BPM) (pid : Nat) : Except Error Nat × BPM :=
  s.fetchPageInternal pid

/-- `BufferPoolManager::fetch_page_write`. -/
def BPM.fetchPageWrite (s : BPM) (pid : Nat) : Except Error Nat × BPM :=
  s.fetchPageInternal pid

/-- `BufferPoolManager::new_page`: obtain a free frame FIRST, then allocate
a page id on disk, zero the frame, set identity, pin, insert into the page
table and update the replacer. -/
def BPM.newPage (s : BPM) : Except Error Nat × BPM :=
  match s.getFreeFrame with
  | (.error e, s1) => (.error e, s1)
  | (.ok fid, s1) =>
      let (pid, dm') := s1.disk.allocatePage
      let s2 : BPM := { s1 with disk := dm' }
      let s3 := s2.setFrame fid
        { s2.frames fid with
          data := pageZero
          pageId := some pid
          pinCount := (s2.frames fid).pinCount + 1 }
      let s4 : BPM := { s3 with pageTable := ptInsert s3.pageTable pid fid }
      let s5 : BPM :=
        { s4 with replacer := (s4.replacer.recordAccess fid).setEvictable fid false }
      (.ok fid, s5)

/-- `BufferPoolManager::delete_page`: success and no effect when absent;
`PageNotPinned` and no effect when pinned; otherwise drop the table entry,
clear identity and dirty flag, purge the replacer and push the frame onto
the free list.  No disk write happens. -/
def BPM.deletePage (s : BPM) (pid : Nat) : Except Error Unit × BPM :=
  match s.pageTable.lookup pid with
  | none => (.ok (), s)
  | some fid =>
      if 0 < (s.frames fid).pinCount then (.error (.PageNotPinned pid), s)
      else
        let s1 : BPM := { s with pageTable := ptRemove s.pageTable pid }
        let s2 := s1.setFrame fid { s1.frames fid with pageId := none, dirty := false }
        let s3 : BPM := { s2 with replacer := s2.replacer.remove fid }
        let s4 : BPM := { s3 with freeList := fid :: s3.freeList }
        (.ok (), s4)

/-- `BufferPoolManager::flush_page`: no-op when the page is not resident,
else flush its frame. -/
def BPM.flushPage (s : BPM) (pid : Nat) : Except Error Unit × BPM :=
  match s.pageTable.lookup pid with
  | none => (.ok (), s)
  | some fid => s.flushFrame fid pid

/-- The `for` loop of `flush_all_pages`: flush the listed entries in order,
stopping at the first error. -/
def BPM.flushList (s : BPM) : List (Nat × Nat) → Except Error Unit × BPM
  | [] => (.ok (), s)
  | (pid, fid) :: rest =>
      match s.flushFrame fid pid with
      | (.error e, s') => (.error e, s')
      | (.ok _, s') => s'.flushList rest

/-- `BufferPoolManager::flush_all_pages`: snapshot the page table and flush
every entry in iteration order. -/
def BPM.flushAllPages (s : BPM) : Except Error Unit × BPM :=
  s.flushList s.pageTable

/-- `BufferPoolManager::unpin_page_internal` (called from the guards): mark
dirty when asked, decrement the pin count (panic on underflow, modelled as
`none`), and make the frame evictable when the count reaches zero. -/
def BPM.unpinPage (s : BPM) (fid : Nat) (isDirty : Bool) : Option BPM :=
  let f0 := s.frames fid
  let f1 := if isDirty then { f0 with dirty := true } else f0
  match Frame.unpinCount f1.pinCount with
  | none => none
  | some n =>
      let s1 := s.setFrame fid { f1 with pinCount := n }
      if n = 0 then
        some { s1 with replacer := s1.replacer.setEvictable fid true }
      else some s1

/-! ## Page guards (src/buffer/page_guard.rs) -/

/-- The mutable state of a `PageReadGuard` / `PageWriteGuard` that matters
sequentially: which frame it pins and whether `drop_guard` already ran. -/
structure Guard where
  frameId : Nat
  dropped : Bool
deriving DecidableEq

/-- `PageReadGuard::drop_guard`: on the first call release and unpin with
`is_dirty = false`; later calls are no-ops. -/
def dropReadGuard (sg : BPM × Guard) : Option (BPM × Guard) :=
  if sg.2.dropped then some sg
  else (sg.1.unpinPage sg.2.frameId false).map
    (fun s' => (s', { sg.2 with dropped := true }))

/-- `PageWriteGuard::drop_guard`: same, with `is_dirty = true`. -/
def dropWriteGuard (sg : BPM × Guard) : Option (BPM × Guard) :=
  if sg.2.dropped then some sg
  else (sg.1.unpinPage sg.2.frameId true).map
    (fun s' => (s', { sg.2 with dropped := true }))

/-- Call `drop_guard` `n` times in sequence. -/
def dropN (step : BPM × Guard → Option (BPM × Guard)) :
    Nat → BPM × Guard → Option (BPM × Guard)
  | 0, sg => some sg
  | n + 1, sg => (step sg).bind (dropN step n)

/-- Mutating the page bytes through a write guard. -/
def BPM.writeData (s : BPM) (fid : Nat) (bytes : List Nat) : BPM :=
  s.setFrame fid { s.frames fid with data := bytes }

/-! ## Derived notions used by the claims -/

/-- Number of loaded frames: frames of the pool whose `page_id` is `Some`. -/
def BPM.loadedCount (s : BPM) : Nat :=
  ((List.range s.poolSize).filter (fun i => (s.frames i).pageId.isSome)).length

/-- The conservation invariant I2 of the spec: loaded frames plus free-list
length equals the pool size. -/
def BPM.conservation (s : BPM) : Prop :=
  s.loadedCount + s.freeList.length = s.poolSize

instance (s : BPM) : Decidable s.conservation := by
  unfold BPM.conservation; infer_instance

/-- `f` is the first evictable element of the replacer's queue: some prefix
of non-evictable frames precedes it. -/
def FifoReplacer.firstEvictable (s : FifoReplacer) (f : Nat) : Prop :=
  f ∈ s.evictable ∧
    ∃ l1 l2, s.queue = l1 ++ f :: l2 ∧ ∀ g ∈ l1, g ∉ s.evictable

/-! ## General lemmas -/

theorem find?_split {α : Type} {p : α → Bool} {l : List α} {a : α}
    (h : l.find? p = some a) :
    ∃ l1 l2, l = l1 ++ a :: l2 ∧ ∀ x ∈ l1, p x = false := by
  induction l with
  | nil => simp [List.find?] at h
  | cons b t ih =>
    rw [List.find?_cons] at h
    cases hpb : p b with
    | true =>
      rw [hpb] at h
      simp only [Option.some.injEq] at h
      subst h
      exact ⟨[], t, rfl, by simp⟩
    | false =>
      rw [hpb] at h
      obtain ⟨l1, l2, hl, hall⟩ := ih h
      refine ⟨b :: l1, l2, by rw [hl]; rfl, ?_⟩
      intro x hx
      rcases List.mem_cons.mp hx with h1 | h1
      · rw [h1]; exact hpb
      · exact hall x h1

/-! ## Claim C2: FIFO replacer contract -/

/-- Claim C2: `evict` returns the first evictable frame in queue order
(first-`record_access` order, since `record_access` appends on first access
only and re-access is a no-op), removing exactly that frame from the queue
and both sets; when no queued frame is evictable it returns `none` and
changes nothing, so the queue survives a transient all-pinned state intact
and a later `set_evictable(f, true)` still sees the originally enqueued
order. -/
theorem evict_of_find_some (s : FifoReplacer) (f : Nat)
    (h : s.queue.find? (fun fid => decide (fid ∈ s.evictable)) = some f) :
    s.evict = (some f,
      { queue := s.queue.erase f, inQueue := s.inQueue.erase f,
        evictable := s.evictable.erase f }) := by
  unfold FifoReplacer.evict
  rw [h]

theorem evict_of_find_none (s : FifoReplacer)
    (h : s.queue.find? (fun fid => decide (fid ∈ s.evictable)) = none) :
    s.evict = (none, s) := by
  unfold FifoReplacer.evict
  rw [h]

theorem evict_fst_none (s : FifoReplacer) (h : s.evict.1 = none) :
    s.evict = (none, s) := by
  rcases hf : s.queue.find? (fun fid => decide (fid ∈ s.evictable)) with _ | g
  · exact evict_of_find_none s hf
  · rw [evict_of_find_some s g hf] at h
    simp at h

theorem fifo_replacer_contract (s : FifoReplacer) (f : Nat) :
    (s.evict.1 = some f →
      s.firstEvictable f ∧
      s.evict.2.queue = s.queue.erase f ∧
      s.evict.2.inQueue = s.inQueue.erase f ∧
      s.evict.2.evictable = s.evictable.erase f) ∧
    (s.evict.1 = none →
      s.evict.2 = s ∧ ∀ g ∈ s.queue, g ∉ s.evictable) ∧
    (f ∈ s.inQueue → s.recordAccess f = s) ∧
    (f ∉ s.inQueue →
      (s.recordAccess f).queue = s.queue ++ [f] ∧
      (s.recordAccess f).evictable = s.evictable) ∧
    (s.evict.1 = none → (s.evict.2.setEvictable f true).queue = s.queue) := by
  have hcase :
      ∀ hev : s.evict.1 = none,
        s.queue.find? (fun fid => decide (fid ∈ s.evictable)) = none := by
    intro hev
    rcases hf : s.queue.find? (fun fid => decide (fid ∈ s.evictable)) with _ | g
    · rfl
    · rw [evict_of_find_some s g hf] at hev
      simp at hev
  refine ⟨?_, ?_, ?_, ?_, ?_⟩
  · intro hev
    have hfind :
        s.queue.find? (fun fid => decide (fid ∈ s.evictable)) = some f := by
      rcases hf : s.queue.find? (fun fid => decide (fid ∈ s.evictable)) with _ | g
      · rw [evict_of_find_none s hf] at hev
        simp at hev
      · rw [evict_of_find_some s g hf] at hev
        have hg : g = f := by simpa using hev
        rw [hg]
    have hmem : f ∈ s.evictable := by
      have := List.find?_some hfind
      exact of_decide_eq_true this
    obtain ⟨l1, l2, hl, hall⟩ := find?_split hfind
    rw [evict_of_find_some s f hfind]
    refine ⟨⟨hmem, l1, l2, hl, ?_⟩, rfl, rfl, rfl⟩
    intro g hg
    have := hall g hg
    exact of_decide_eq_false this
  · intro hev
    have hfind := hcase hev
    rw [evict_of_find_none s hfind]
    refine ⟨rfl, ?_⟩
    intro g hg
    have := List.find?_eq_none.mp hfind g hg
    simpa using this
  · intro hin
    unfold FifoReplacer.recordAccess
    rw [if_pos hin]
  · intro hnin
    unfold FifoReplacer.recordAccess
    rw [if_neg hnin]
    exact ⟨rfl, rfl⟩
  · intro hev
    have hfind := hcase hev
    rw [evict_of_find_none s hfind]
    unfold FifoReplacer.setEvictable
    simp

/-- Scenario 8.5 of the spec: frames 0, 1, 2 enqueued in order, only 1
evictable. -/
def replacerScenario : FifoReplacer :=
  ((((FifoReplacer.new.recordAccess 0).recordAccess 1).recordAccess 2).setEvictable 1 true)

/-- Witness for C2 at the spec's scenario 8.5 and at an all-pinned state. -/
theorem fifo_replacer_contract_witness :
    (FifoReplacer.firstEvictable replacerScenario 1 ∧
      replacerScenario.evict.2.queue = replacerScenario.queue.erase 1 ∧
      replacerScenario.evict.2.inQueue = replacerScenario.inQueue.erase 1 ∧
      replacerScenario.evict.2.evictable = replacerScenario.evictable.erase 1) ∧
    (replacerScenario.evict.2.evict.2 = replacerScenario.evict.2 ∧
      ∀ g ∈ replacerScenario.evict.2.queue, g ∉ replacerScenario.evict.2.evictable) ∧
    FifoReplacer.recordAccess replacerScenario 2 = replacerScenario ∧
    ((FifoReplacer.recordAccess replacerScenario 7).queue =
        replacerScenario.queue ++ [7] ∧
      (FifoReplacer.recordAccess replacerScenario 7).evictable =
        replacerScenario.evictable) ∧
    (replacerScenario.evict.2.setEvictable 0 true).queue =
      replacerScenario.evict.2.queue :=
  ⟨(fifo_replacer_contract replacerScenario 1).1 (by decide),
   (fifo_replacer_contract replacerScenario.evict.2 0).2.1 (by decide),
   (fifo_replacer_contract replacerScenario 2).2.2.1 (by decide),
   (fifo_replacer_contract replacerScenario 7).2.2.2.1 (by decide),
   (fifo_replacer_contract replacerScenario.evict.2 0).2.2.2.2 (by decide)⟩

/-! ## Claim C9: pin-count underflow asserts -/

/-- Claim C9: `Frame::unpin` on a zero pin count hits the
`assert!(old > 0)` and panics (modelled by `none`) rather than silently
leaving a wrapped-around large count; with `pin_count > 0` it returns
exactly `pin_count - 1` and the panic branch is unreachable. -/
theorem frame_unpin_contract :
    Frame.unpinCount 0 = none ∧
    ∀ pc : Nat, 0 < pc → Frame.unpinCount pc = some (pc - 1) := by
  constructor
  · rfl
  · intro pc h
    unfold Frame.unpinCount
    rw [if_pos h]

/-- Witness for C9 at pin count 3. -/
theorem frame_unpin_contract_witness :
    Frame.unpinCount 0 = none ∧ Frame.unpinCount 3 = some 2 :=
  ⟨frame_unpin_contract.1, frame_unpin_contract.2 3 (by decide)⟩

/-! ## Claim C1: conservation invariant across operations, errors included -/

/-- A fault-free empty disk. -/
def dmEmpty : DiskManager := { pages := [], failWrite := fun _ => false }

/-- A fresh pool of one frame over an empty disk. -/
def c1State : BPM := BPM.new 1 dmEmpty

/-- Claim C1 fails on the code: `handle_cache_miss` obtains a frame from
`get_free_frame` before calling `read_page`, and when the read fails with
`PageNotFound` the frame is neither installed nor pushed back onto the free
list.  On a fresh pool of size 1, fetching page 5 (absent from the empty
disk) returns `PageNotFound` but drops the conservation sum from 1 to 0:
the invariant held before the call and is broken after it. -/
theorem fetch_missing_page_breaks_conservation :
    c1State.conservation ∧
    (c1State.fetchPageRead 5).1 = .error (.PageNotFound 5) ∧
    ¬ (c1State.fetchPageRead 5).2.conservation ∧
    (c1State.fetchPageRead 5).2.loadedCount = 0 ∧
    (c1State.fetchPageRead 5).2.freeList = [] ∧
    (c1State.fetchPageRead 5).2.poolSize = 1 := by
  refine ⟨by decide, by decide, by decide, by decide, by decide, by decide⟩

/-! ## Claim C3: order of frame acquisition and disk allocation in new_page -/

/-- A pool of size 1 whose only frame is loaded with page 0 and pinned, so
no free frame can be obtained; the disk holds one page.  (This state is
reached from a fresh pool by `new_page` while the returned guard is still
held.) -/
def c3State : BPM :=
  { poolSize := 1,
    frames := fun _ =>
      { data := pageZero, pageId := some 0, pinCount := 1, dirty := false },
    pageTable := [(0, 0)],
    freeList := [],
    replacer := { queue := [0], inQueue := {0}, evictable := ∅ },
    disk := { pages := [pageZero], failWrite := fun _ => false } }

/-- Counterexample to claim C3: when every frame is pinned, `new_page`
fails with `NoFreeFrames` and the disk page count is unchanged — no
`PageId` was allocated, because the code obtains the frame BEFORE calling
`allocate_page`, not after as the claim states. -/
theorem new_page_no_disk_leak_counterexample :
    c3State.newPage.1 = .error .NoFreeFrames ∧
    c3State.disk.pages.length = 1 ∧
    c3State.newPage.2.disk.pages.length = 1 := by
  refine ⟨by decide, by decide, by decide⟩

/-- `write_page` never reports frame exhaustion. -/
theorem writePage_ne_noFreeFrames (dm : DiskManager) (pid : Nat)
    (data : List Nat) : dm.writePage pid data ≠ .error .NoFreeFrames := by
  unfold DiskManager.writePage
  by_cases h1 : pid < dm.pages.length
  · rw [if_pos h1]
    by_cases h2 : dm.failWrite pid
    · rw [if_pos h2]
      intro h
      cases h
    · rw [if_neg h2]
      intro h
      cases h
  · rw [if_neg h1]
    intro h
    cases h

/-- `flush_frame` never reports frame exhaustion. -/
theorem flushFrame_ne_noFreeFrames (s : BPM) (fid pid : Nat) :
    (s.flushFrame fid pid).1 ≠ .error .NoFreeFrames := by
  unfold BPM.flushFrame
  by_cases hd : (s.frames fid).dirty
  · rw [if_pos hd]
    rcases hw : s.disk.writePage pid (s.frames fid).data with e | dm'
    · intro h
      simp only at h
      cases h
      exact writePage_ne_noFreeFrames s.disk pid (s.frames fid).data hw
    · intro h
      simp at h
  · rw [if_neg hd]
    intro h
    simp at h

/-! Operation-level case lemmas used across the claims. -/

theorem getFreeFrame_cons (s : BPM) (f : Nat) (rest : List Nat)
    (h : s.freeList = f :: rest) :
    s.getFreeFrame = (.ok f, { s with freeList := rest }) := by
  unfold BPM.getFreeFrame
  rw [h]

theorem getFreeFrame_nil (s : BPM) (h : s.freeList = []) :
    s.getFreeFrame = s.evictPage := by
  unfold BPM.getFreeFrame
  rw [h]

theorem flushFrame_clean (s : BPM) (fid pid : Nat)
    (h : (s.frames fid).dirty = false) :
    s.flushFrame fid pid = (.ok (), s) := by
  unfold BPM.flushFrame
  rw [h]
  simp

theorem flushFrame_dirty_error (s : BPM) (fid pid : Nat) (e : Error)
    (hd : (s.frames fid).dirty = true)
    (hw : s.disk.writePage pid (s.frames fid).data = .error e) :
    s.flushFrame fid pid = (.error e, s) := by
  unfold BPM.flushFrame
  rw [hd, hw]
  simp

theorem flushFrame_dirty_ok (s : BPM) (fid pid : Nat) (dm' : DiskManager)
    (hd : (s.frames fid).dirty = true)
    (hw : s.disk.writePage pid (s.frames fid).data = .ok dm') :
    s.flushFrame fid pid =
      (.ok (),
        { s.setFrame fid { s.frames fid with dirty := false } with disk := dm' }) := by
  unfold BPM.flushFrame
  rw [hd, hw]
  simp

theorem evictPage_of_evict_none (s : BPM) (h : s.replacer.evict.1 = none) :
    s.evictPage = (.error .NoFreeFrames, s) := by
  unfold BPM.evictPage
  rw [evict_fst_none s.replacer h]

theorem evictPage_of_evict_some_flush_error (s : BPM) (fid pid : Nat) (e : Error)
    (hev : s.replacer.evict.1 = some fid)
    (hd : (s.frames fid).dirty = true)
    (hpid : (s.frames fid).pageId = some pid)
    (hw : s.disk.writePage pid (s.frames fid).data = .error e) :
    s.evictPage = (.error e, { s with replacer := s.replacer.evict.2 }) := by
  have hpair : s.replacer.evict = (some fid, s.replacer.evict.2) := by
    rw [← hev]
  unfold BPM.evictPage
  rw [hpair]
  have hff := flushFrame_dirty_error { s with replacer := s.replacer.evict.2 }
    fid pid e hd hw
  simp only [hd, hpid, hff]
  simp

theorem evictPage_fst_of_evict_some (s : BPM) (fid : Nat)
    (hev : s.replacer.evict.1 = some fid) :
    s.evictPage.1 = .ok fid ∨
    ∃ e, s.evictPage.1 = .error e ∧ e ≠ .NoFreeFrames := by
  have hpair : s.replacer.evict = (some fid, s.replacer.evict.2) := by
    rw [← hev]
  unfold BPM.evictPage
  rw [hpair]
  by_cases hd : (s.frames fid).dirty
  · rcases hpid : (s.frames fid).pageId with _ | pid
    · left
      simp [hd, hpid]
    · rcases hff : ({ s with replacer := s.replacer.evict.2 } : BPM).flushFrame fid pid
        with ⟨er | u, s2⟩
      · right
        have hne := flushFrame_ne_noFreeFrames
          { s with replacer := s.replacer.evict.2 } fid pid
        rw [hff] at hne
        refine ⟨er, ?_, ?_⟩
        · simp [hd, hpid, hff]
        · intro hcontra
          rw [hcontra] at hne
          exact hne rfl
      · left
        simp [hd, hpid, hff]
  · left
    simp at hd
    simp [hd]

/-- Claim C3, amended: `new_page` obtains a free frame first and calls
`allocate_page` only afterwards; consequently when it fails with
`NoFreeFrames` the allocation was never performed and the whole state — the
disk file included — is unchanged, so no `PageId` is leaked on disk. -/
theorem new_page_noFreeFrames_allocates_nothing (s : BPM)
    (h : s.newPage.1 = .error .NoFreeFrames) : s.newPage.2 = s := by
  rcases hfl : s.freeList with _ | ⟨f, rest⟩
  · have hgf := getFreeFrame_nil s hfl
    rcases hev : s.replacer.evict.1 with _ | fid
    · have hep := evictPage_of_evict_none s hev
      have hnp : s.newPage = (.error .NoFreeFrames, s) := by
        unfold BPM.newPage
        rw [hgf, hep]
      rw [hnp]
    · exfalso
      have hfst : s.newPage.1 = s.evictPage.1 := by
        unfold BPM.newPage
        rw [hgf]
        rcases hepr : s.evictPage with ⟨er | f2, s1⟩
        · rfl
        · rfl
      rw [hfst] at h
      rcases evictPage_fst_of_evict_some s fid hev with hok | ⟨e, he, hne⟩
      · rw [hok] at h
        cases h
      · rw [he] at h
        simp only [Except.error.injEq] at h
        exact hne h
  · exfalso
    have hgf := getFreeFrame_cons s f rest hfl
    have hok : s.newPage.1 = .ok f := by
      unfold BPM.newPage
      rw [hgf]
    rw [hok] at h
    cases h

/-- Witness for the amended C3 at the concrete all-pinned pool. -/
theorem new_page_noFreeFrames_witness : c3State.newPage.2 = c3State :=
  new_page_noFreeFrames_allocates_nothing c3State (by decide)

/-! ## Claim C4: failed victim flush during eviction -/

/-- A pool of size 1 whose only frame holds page 0, unpinned and dirty, with
the replacer knowing it and every disk write failing.  (Reached from a fresh
pool by `new_page` followed by dropping the write guard, after which the
environment starts failing writes.) -/
def c4State : BPM :=
  { poolSize := 1,
    frames := fun _ =>
      { data := pageZero, pageId := some 0, pinCount := 0, dirty := true },
    pageTable := [(0, 0)],
    freeList := [],
    replacer := { queue := [0], inQueue := {0}, evictable := {0} },
    disk := { pages := [pageZero], failWrite := fun _ => true } }

/-- The environment stops failing writes: the disk error clears. -/
def clearFaults (s : BPM) : BPM :=
  { s with disk := { s.disk with failWrite := fun _ => false } }

/-- Counterexample to claim C4: on a pool of one dirty unpinned page with
writes failing, `new_page` propagates the `Io` error and does keep the
victim's entry in the page table with the dirty flag set — but the victim
was already removed from the replacer's queue and evictable set by
`evict()`, so it is NOT findable as an eviction candidate: retrying
`new_page` after the disk error clears still fails, with `NoFreeFrames`. -/
theorem evict_flush_error_counterexample :
    c4State.newPage.1 = .error .Io ∧
    c4State.newPage.2.pageTable = [(0, 0)] ∧
    (c4State.newPage.2.frames 0).dirty = true ∧
    c4State.newPage.2.replacer.queue = [] ∧
    c4State.newPage.2.replacer.evictable = ∅ ∧
    (clearFaults c4State.newPage.2).newPage.1 = .error .NoFreeFrames := by
  refine ⟨by decide, by decide, by decide, by decide, by decide, by decide⟩

theorem evict_snd_queue_of_fst_some (r : FifoReplacer) (fid : Nat)
    (h : r.evict.1 = some fid) :
    r.evict.2.queue = r.queue.erase fid ∧
    r.evict.2.evictable = r.evictable.erase fid := by
  rcases hf : r.queue.find? (fun g => decide (g ∈ r.evictable)) with _ | g
  · rw [evict_of_find_none r hf] at h
    simp at h
  · rw [evict_of_find_some r g hf] at h
    simp only [Option.some.injEq] at h
    rw [h] at hf
    rw [evict_of_find_some r fid hf]
    exact ⟨rfl, rfl⟩

/-- Claim C4, amended: when the victim of an eviction is dirty and the disk
write of its bytes fails, the eviction returns that error, the victim's
page-table entry, bytes, dirty flag and pin count are all left intact — but
the victim has already been removed from the replacer's bookkeeping (its
queue and evictable set), so it is no longer findable as an eviction
candidate; a retry can only succeed after something re-records it. -/
theorem evict_flush_error_keeps_page (s : BPM) (fid pid : Nat) (e : Error)
    (hev : s.replacer.evict.1 = some fid)
    (hd : (s.frames fid).dirty = true)
    (hpid : (s.frames fid).pageId = some pid)
    (hw : s.disk.writePage pid (s.frames fid).data = .error e)
    (hnd : s.replacer.queue.Nodup) :
    s.evictPage.1 = .error e ∧
    s.evictPage.2.pageTable = s.pageTable ∧
    s.evictPage.2.frames = s.frames ∧
    s.evictPage.2.replacer = s.replacer.evict.2 ∧
    fid ∉ s.evictPage.2.replacer.queue ∧
    fid ∉ s.evictPage.2.replacer.evictable := by
  have heq := evictPage_of_evict_some_flush_error s fid pid e hev hd hpid hw
  rw [heq]
  obtain ⟨hq, hevs⟩ := evict_snd_queue_of_fst_some s.replacer fid hev
  refine ⟨rfl, rfl, rfl, rfl, ?_, ?_⟩
  · simp only [hq]
    exact hnd.not_mem_erase
  · simp only [hevs]
    exact Finset.not_mem_erase fid s.replacer.evictable

/-- Witness for the amended C4 at the concrete one-frame pool. -/
theorem evict_flush_error_keeps_page_witness :
    c4State.evictPage.1 = .error .Io ∧
    c4State.evictPage.2.pageTable = c4State.pageTable ∧
    c4State.evictPage.2.frames = c4State.frames ∧
    c4State.evictPage.2.replacer = c4State.replacer.evict.2 ∧
    0 ∉ c4State.evictPage.2.replacer.queue ∧
    0 ∉ c4State.evictPage.2.replacer.evictable :=
  evict_flush_error_keeps_page c4State 0 0 .Io (by decide) (by decide)
    (by decide) (by rfl) (by decide)

/-! ## Claim C5: guard drop effect and idempotence -/

theorem unpinPage_some (s : BPM) (fid : Nat) (b : Bool)
    (hpin : 1 ≤ (s.frames fid).pinCount) :
    ∃ s', s.unpinPage fid b = some s' ∧
      (s'.frames fid).pinCount + 1 = (s.frames fid).pinCount ∧
      (s'.frames fid).dirty = (if b then true else (s.frames fid).dirty) ∧
      (s'.frames fid).data = (s.frames fid).data ∧
      (s'.frames fid).pageId = (s.frames fid).pageId ∧
      s'.pageTable = s.pageTable ∧ s'.freeList = s.freeList ∧
      s'.disk = s.disk ∧
      (∀ i, i ≠ fid → s'.frames i = s.frames i) := by
  have hpos : 0 < (s.frames fid).pinCount := hpin
  have hu : Frame.unpinCount (s.frames fid).pinCount =
      some ((s.frames fid).pinCount - 1) := by
    unfold Frame.unpinCount
    rw [if_pos hpos]
  unfold BPM.unpinPage
  cases b with
  | false =>
    simp only [Bool.false_eq_true, if_false, hu]
    by_cases hz : (s.frames fid).pinCount - 1 = 0
    · rw [if_pos hz]
      refine ⟨_, rfl, ?_, ?_, ?_, ?_, rfl, rfl, rfl, ?_⟩
      · simp [BPM.setFrame, hz, Nat.succ_le_iff.mp hpin]
        omega
      · simp [BPM.setFrame]
      · simp [BPM.setFrame]
      · simp [BPM.setFrame]
      · intro i hi
        simp [BPM.setFrame, hi]
    · rw [if_neg hz]
      refine ⟨_, rfl, ?_, ?_, ?_, ?_, rfl, rfl, rfl, ?_⟩
      · simp [BPM.setFrame]
        omega
      · simp [BPM.setFrame]
      · simp [BPM.setFrame]
      · simp [BPM.setFrame]
      · intro i hi
        simp [BPM.setFrame, hi]
  | true =>
    simp only [if_true, hu]
    by_cases hz : (s.frames fid).pinCount - 1 = 0
    · rw [if_pos hz]
      refine ⟨_, rfl, ?_, ?_, ?_, ?_, rfl, rfl, rfl, ?_⟩
      · simp [BPM.setFrame]
        omega
      · simp [BPM.setFrame]
      · simp [BPM.setFrame]
      · simp [BPM.setFrame]
      · intro i hi
        simp [BPM.setFrame, hi]
    · rw [if_neg hz]
      refine ⟨_, rfl, ?_, ?_, ?_, ?_, rfl, rfl, rfl, ?_⟩
      · simp [BPM.setFrame]
        omega
      · simp [BPM.setFrame]
      · simp [BPM.setFrame]
      · simp [BPM.setFrame]
      · intro i hi
        simp [BPM.setFrame, hi]

theorem dropReadGuard_dropped (sg : BPM × Guard) (h : sg.2.dropped = true) :
    dropReadGuard sg = some sg := by
  unfold dropReadGuard
  rw [if_pos h]

theorem dropWriteGuard_dropped (sg : BPM × Guard) (h : sg.2.dropped = true) :
    dropWriteGuard sg = some sg := by
  unfold dropWriteGuard
  rw [if_pos h]

theorem dropN_of_dropped (step : BPM × Guard → Option (BPM × Guard))
    (hstep : ∀ sg : BPM × Guard, sg.2.dropped = true → step sg = some sg)
    (m : Nat) (sg : BPM × Guard) (h : sg.2.dropped = true) :
    dropN step m sg = some sg := by
  induction m with
  | zero => rfl
  | succ k ih =>
    unfold dropN
    rw [hstep sg h]
    exact ih

/-- Claim C5: for a live guard (not yet dropped, holding its pin), calling
`drop_guard` `n ≥ 1` times has exactly the effect of calling it once; the
single effective call on a read guard decrements the frame's pin count by
exactly 1 and leaves the dirty flag unchanged, and on a write guard
decrements the pin count by exactly 1 and sets the dirty flag to true. -/
theorem guard_drop_contract (s : BPM) (g : Guard) (n : Nat)
    (hn : 1 ≤ n) (hlive : g.dropped = false)
    (hpin : 1 ≤ (s.frames g.frameId).pinCount) :
    (∃ sr, dropReadGuard (s, g) = some sr ∧
      dropN dropReadGuard n (s, g) = some sr ∧
      (sr.1.frames g.frameId).pinCount + 1 = (s.frames g.frameId).pinCount ∧
      (sr.1.frames g.frameId).dirty = (s.frames g.frameId).dirty) ∧
    (∃ sw, dropWriteGuard (s, g) = some sw ∧
      dropN dropWriteGuard n (s, g) = some sw ∧
      (sw.1.frames g.frameId).pinCount + 1 = (s.frames g.frameId).pinCount ∧
      (sw.1.frames g.frameId).dirty = true) := by
  obtain ⟨m, rfl⟩ : ∃ m, n = m + 1 := ⟨n - 1, by omega⟩
  constructor
  · obtain ⟨s', hs', hpc, hdt, _⟩ := unpinPage_some s g.frameId false hpin
    have hone : dropReadGuard (s, g) = some (s', { g with dropped := true }) := by
      unfold dropReadGuard
      simp only [hlive]
      rw [hs']
      rfl
    refine ⟨(s', { g with dropped := true }), hone, ?_, hpc, by simpa using hdt⟩
    unfold dropN
    rw [hone]
    exact dropN_of_dropped dropReadGuard dropReadGuard_dropped m _ rfl
  · obtain ⟨s', hs', hpc, hdt, _⟩ := unpinPage_some s g.frameId true hpin
    have hone : dropWriteGuard (s, g) = some (s', { g with dropped := true }) := by
      unfold dropWriteGuard
      simp only [hlive]
      rw [hs']
      rfl
    refine ⟨(s', { g with dropped := true }), hone, ?_, hpc, by simpa using hdt⟩
    unfold dropN
    rw [hone]
    exact dropN_of_dropped dropWriteGuard dropWriteGuard_dropped m _ rfl

/-- Witness for C5: a one-page pool with a live write guard, dropped three
times. -/
def c5State : BPM :=
  { poolSize := 1,
    frames := fun _ =>
      { data := pageZero, pageId := some 0, pinCount := 1, dirty := false },
    pageTable := [(0, 0)],
    freeList := [],
    replacer := { queue := [0], inQueue := {0}, evictable := ∅ },
    disk := { pages := [pageZero], failWrite := fun _ => false } }

theorem guard_drop_contract_witness :
    (∃ sr, dropReadGuard (c5State, ⟨0, false⟩) = some sr ∧
      dropN dropReadGuard 3 (c5State, ⟨0, false⟩) = some sr ∧
      (sr.1.frames 0).pinCount + 1 = (c5State.frames 0).pinCount ∧
      (sr.1.frames 0).dirty = (c5State.frames 0).dirty) ∧
    (∃ sw, dropWriteGuard (c5State, ⟨0, false⟩) = some sw ∧
      dropN dropWriteGuard 3 (c5State, ⟨0, false⟩) = some sw ∧
      (sw.1.frames 0).pinCount + 1 = (c5State.frames 0).pinCount ∧
      (sw.1.frames 0).dirty = true) :=
  guard_drop_contract c5State ⟨0, false⟩ 3 (by decide) (by decide) (by decide)

/-! ## Claim C7: delete_page contract -/

theorem lookup_ptRemove (t : List (Nat × Nat)) (pid : Nat) :
    (ptRemove t pid).lookup pid = none := by
  induction t with
  | nil => rfl
  | cons e rest ih =>
    rcases e with ⟨k, v⟩
    by_cases hk : k = pid
    · simpa [ptRemove, List.filter_cons, hk] using ih
    · have hne : (pid == k) = false := by
        simp [Ne.symm hk]
      simp only [ptRemove, List.filter_cons] at ih ⊢
      have hcond : decide ((k, v).1 ≠ pid) = true := by
        simp [hk]
      simp only [hcond, if_true]
      rw [List.lookup_cons]
      simp only [hne]
      exact ih

theorem remove_purges (r : FifoReplacer) (fid : Nat)
    (h : fid ∈ r.inQueue ∨ fid ∉ r.queue) :
    fid ∉ (r.remove fid).queue ∧ fid ∉ (r.remove fid).evictable := by
  unfold FifoReplacer.remove
  by_cases hin : fid ∈ r.inQueue
  · rw [if_pos hin]
    refine ⟨?_, Finset.not_mem_erase fid r.evictable⟩
    intro hmem
    have := List.of_mem_filter hmem
    simp at this
  · rw [if_neg hin]
    refine ⟨?_, Finset.not_mem_erase fid r.evictable⟩
    rcases h with hq | hq
    · exact absurd hq hin
    · exact hq

/-- Claim C7: `delete_page` succeeds with no effect on an absent page;
fails with `PageNotPinned` and no effect on a pinned resident page; on an
unpinned resident page it removes the page-table entry, clears the frame's
identity and dirty flag, purges the frame from the replacer, pushes it onto
the free list, and performs no disk write. -/
theorem delete_page_contract (s : BPM) (pid : Nat) :
    (s.pageTable.lookup pid = none → s.deletePage pid = (.ok (), s)) ∧
    (∀ fid, s.pageTable.lookup pid = some fid →
      0 < (s.frames fid).pinCount →
      s.deletePage pid = (.error (.PageNotPinned pid), s)) ∧
    (∀ fid, s.pageTable.lookup pid = some fid →
      (s.frames fid).pinCount = 0 →
      (fid ∈ s.replacer.inQueue ∨ fid ∉ s.replacer.queue) →
      (s.deletePage pid).1 = .ok () ∧
      (s.deletePage pid).2.pageTable.lookup pid = none ∧
      ((s.deletePage pid).2.frames fid).pageId = none ∧
      ((s.deletePage pid).2.frames fid).dirty = false ∧
      fid ∉ (s.deletePage pid).2.replacer.queue ∧
      fid ∉ (s.deletePage pid).2.replacer.evictable ∧
      (s.deletePage pid).2.freeList = fid :: s.freeList ∧
      (s.deletePage pid).2.disk = s.disk) := by
  refine ⟨?_, ?_, ?_⟩
  · intro h
    unfold BPM.deletePage
    rw [h]
  · intro fid h hpin
    unfold BPM.deletePage
    rw [h]
    simp only [hpin, if_true]
  · intro fid h hpin hrep
    have hnp : ¬ 0 < (s.frames fid).pinCount := by omega
    have heq : s.deletePage pid =
        (.ok (),
          { poolSize := s.poolSize,
            frames := fun i => if i = fid then
                { data := (s.frames fid).data, pageId := none,
                  pinCount := (s.frames fid).pinCount, dirty := false }
              else s.frames i,
            pageTable := ptRemove s.pageTable pid,
            freeList := fid :: s.freeList,
            replacer := s.replacer.remove fid,
            disk := s.disk }) := by
      unfold BPM.deletePage
      rw [h]
      simp only [hnp, if_false, BPM.setFrame]
    rw [heq]
    obtain ⟨hq, hev⟩ := remove_purges s.replacer fid hrep
    exact ⟨rfl, lookup_ptRemove s.pageTable pid, by simp, by simp, hq, hev,
      rfl, rfl⟩

/-- Witness for C7: the three cases on concrete one-page pools. -/
theorem delete_page_contract_witness :
    c5State.deletePage 7 = (.ok (), c5State) ∧
    c5State.deletePage 0 = (.error (.PageNotPinned 0), c5State) ∧
    ((c4State.deletePage 0).1 = .ok () ∧
      (c4State.deletePage 0).2.pageTable.lookup 0 = none ∧
      ((c4State.deletePage 0).2.frames 0).pageId = none ∧
      ((c4State.deletePage 0).2.frames 0).dirty = false ∧
      0 ∉ (c4State.deletePage 0).2.replacer.queue ∧
      0 ∉ (c4State.deletePage 0).2.replacer.evictable ∧
      (c4State.deletePage 0).2.freeList = 0 :: c4State.freeList ∧
      (c4State.deletePage 0).2.disk = c4State.disk) :=
  ⟨(delete_page_contract c5State 7).1 (by decide),
   (delete_page_contract c5State 0).2.1 0 (by decide) (by decide),
   (delete_page_contract c4State 0).2.2 0 (by decide) (by decide)
     (Or.inl (by decide))⟩

/-! ## Claim C8: flush_page contract -/

theorem writePage_ok_eq (dm : DiskManager) (pid : Nat) (d : List Nat)
    (dm' : DiskManager) (h : dm.writePage pid d = .ok dm') :
    pid < dm.pages.length ∧ dm'.pages = dm.pages.set pid d := by
  unfold DiskManager.writePage at h
  by_cases h1 : pid < dm.pages.length
  · rw [if_pos h1] at h
    by_cases h2 : dm.failWrite pid = true
    · rw [if_pos h2] at h
      cases h
    · rw [if_neg h2] at h
      simp only [Except.ok.injEq] at h
      exact ⟨h1, by rw [← h]⟩
  · rw [if_neg h1] at h
    cases h

/-- Claim C8: `flush_page` of a non-resident page is a no-op returning Ok;
when the page is resident and `flush_page` returns Ok, the frame is clean
and the on-disk bytes equal the frame's current bytes (for an already-clean
frame this relies on the system invariant, taken as a hypothesis, that a
clean resident frame agrees with the disk); pin count, replacer state, free
list and page table are untouched. -/
theorem flush_page_contract (s : BPM) (pid : Nat) :
    (s.pageTable.lookup pid = none → s.flushPage pid = (.ok (), s)) ∧
    (∀ fid, s.pageTable.lookup pid = some fid →
      ((s.frames fid).dirty = false →
        s.disk.pages[pid]? = some (s.frames fid).data) →
      (s.flushPage pid).1 = .ok () →
      ((s.flushPage pid).2.frames fid).dirty = false ∧
      (s.flushPage pid).2.disk.pages[pid]? =
        some (((s.flushPage pid).2.frames fid).data) ∧
      ((s.flushPage pid).2.frames fid).pinCount = (s.frames fid).pinCount ∧
      (s.flushPage pid).2.replacer = s.replacer ∧
      (s.flushPage pid).2.freeList = s.freeList ∧
      (s.flushPage pid).2.pageTable = s.pageTable) := by
  constructor
  · intro h
    unfold BPM.flushPage
    rw [h]
  · intro fid h hclean hok
    have hfp : s.flushPage pid = s.flushFrame fid pid := by
      unfold BPM.flushPage
      rw [h]
    by_cases hd : (s.frames fid).dirty = true
    · rcases hw : s.disk.writePage pid (s.frames fid).data with e | dm'
      · exfalso
        rw [hfp, flushFrame_dirty_error s fid pid e hd hw] at hok
        cases hok
      · obtain ⟨hlt, hpages⟩ := writePage_ok_eq s.disk pid _ dm' hw
        rw [hfp, flushFrame_dirty_ok s fid pid dm' hd hw]
        refine ⟨by simp [BPM.setFrame], ?_, by simp [BPM.setFrame], rfl, rfl, rfl⟩
        rw [hpages]
        simp [BPM.setFrame, List.getElem?_set_self hlt]
    · have hdf : (s.frames fid).dirty = false := by
        simpa using hd
      rw [hfp, flushFrame_clean s fid pid hdf]
      exact ⟨hdf, hclean hdf, rfl, rfl, rfl, rfl⟩

/-- Witness for C8: non-resident flush on a fresh pool, and a resident
dirty flush on the one-page pool with working disk. -/
def c8State : BPM :=
  { c4State with disk := { pages := [pageZero], failWrite := fun _ => false } }

theorem flush_page_contract_witness :
    (BPM.new 1 dmEmpty).flushPage 3 = (.ok (), BPM.new 1 dmEmpty) ∧
    (((c8State.flushPage 0).2.frames 0).dirty = false ∧
      (c8State.flushPage 0).2.disk.pages[0]? =
        some (((c8State.flushPage 0).2.frames 0).data) ∧
      ((c8State.flushPage 0).2.frames 0).pinCount = (c8State.frames 0).pinCount ∧
      (c8State.flushPage 0).2.replacer = c8State.replacer ∧
      (c8State.flushPage 0).2.freeList = c8State.freeList ∧
      (c8State.flushPage 0).2.pageTable = c8State.pageTable) :=
  ⟨(flush_page_contract (BPM.new 1 dmEmpty) 3).1 (by decide),
   (flush_page_contract c8State 0).2 0 (by decide)
     (fun hfalse => absurd hfalse (by decide)) (by decide)⟩

/-! ## Claim C10: flush_all_pages stops at the first error -/

theorem flushFrame_error_eq (s : BPM) (fid pid : Nat) (e : Error)
    (h : (s.flushFrame fid pid).1 = .error e) :
    (s.flushFrame fid pid).2 = s := by
  by_cases hd : (s.frames fid).dirty = true
  · rcases hw : s.disk.writePage pid (s.frames fid).data with e2 | dm'
    · rw [flushFrame_dirty_error s fid pid e2 hd hw]
    · rw [flushFrame_dirty_ok s fid pid dm' hd hw] at h
      cases h
  · have hdf : (s.frames fid).dirty = false := by simpa using hd
    rw [flushFrame_clean s fid pid hdf] at h
    cases h

theorem flushFrame_frames_ne (s : BPM) (fid pid g : Nat) (hg : g ≠ fid) :
    (s.flushFrame fid pid).2.frames g = s.frames g := by
  by_cases hd : (s.frames fid).dirty = true
  · rcases hw : s.disk.writePage pid (s.frames fid).data with e2 | dm'
    · rw [flushFrame_dirty_error s fid pid e2 hd hw]
    · rw [flushFrame_dirty_ok s fid pid dm' hd hw]
      simp [BPM.setFrame, hg]
  · have hdf : (s.frames fid).dirty = false := by simpa using hd
    rw [flushFrame_clean s fid pid hdf]

theorem flushFrame_disk_ne (s : BPM) (fid pid q : Nat) (hq : q ≠ pid) :
    (s.flushFrame fid pid).2.disk.pages[q]? = s.disk.pages[q]? := by
  by_cases hd : (s.frames fid).dirty = true
  · rcases hw : s.disk.writePage pid (s.frames fid).data with e2 | dm'
    · rw [flushFrame_dirty_error s fid pid e2 hd hw]
    · rw [flushFrame_dirty_ok s fid pid dm' hd hw]
      obtain ⟨hlt, hpages⟩ := writePage_ok_eq s.disk pid _ dm' hw
      show dm'.pages[q]? = s.disk.pages[q]?
      rw [hpages]
      exact List.getElem?_set_ne (Ne.symm hq)
  · have hdf : (s.frames fid).dirty = false := by simpa using hd
    rw [flushFrame_clean s fid pid hdf]

theorem flushList_cons_error (s : BPM) (pid fid : Nat)
    (rest : List (Nat × Nat)) (e : Error) (s' : BPM)
    (h : s.flushFrame fid pid = (.error e, s')) :
    s.flushList ((pid, fid) :: rest) = (.error e, s') := by
  unfold BPM.flushList
  rw [h]

theorem flushList_cons_ok (s : BPM) (pid fid : Nat)
    (rest : List (Nat × Nat)) (s' : BPM)
    (h : s.flushFrame fid pid = (.ok (), s')) :
    s.flushList ((pid, fid) :: rest) = s'.flushList rest := by
  rw [BPM.flushList, h]

theorem flushList_append_ok (l1 : List (Nat × Nat)) (s : BPM)
    (l2 : List (Nat × Nat)) (h : (s.flushList l1).1 = .ok ()) :
    s.flushList (l1 ++ l2) = (s.flushList l1).2.flushList l2 := by
  induction l1 generalizing s with
  | nil => rfl
  | cons pf rest ih =>
    rcases pf with ⟨pid, fid⟩
    rcases hff : s.flushFrame fid pid with ⟨er | u, s'⟩
    · rw [flushList_cons_error s pid fid rest er s' hff] at h
      cases h
    · have hcons := flushList_cons_ok s pid fid rest s' hff
      rw [List.cons_append, flushList_cons_ok s pid fid (rest ++ l2) s' hff]
      rw [hcons] at h ⊢
      exact ih s' h

theorem flushList_frames_ne (l : List (Nat × Nat)) (s : BPM) (g : Nat)
    (hg : g ∉ l.map Prod.snd) :
    (s.flushList l).2.frames g = s.frames g := by
  induction l generalizing s with
  | nil => rfl
  | cons pf rest ih =>
    rcases pf with ⟨pid, fid⟩
    simp only [List.map_cons, List.mem_cons, not_or] at hg
    have h2 := flushFrame_frames_ne s fid pid g hg.1
    rcases hff : s.flushFrame fid pid with ⟨er | u, s'⟩
    · rw [flushList_cons_error s pid fid rest er s' hff]
      rw [hff] at h2
      exact h2
    · rw [flushList_cons_ok s pid fid rest s' hff]
      rw [hff] at h2
      rw [ih s' (by simpa using hg.2)]
      exact h2

theorem flushList_disk_ne (l : List (Nat × Nat)) (s : BPM) (q : Nat)
    (hq : q ∉ l.map Prod.fst) :
    (s.flushList l).2.disk.pages[q]? = s.disk.pages[q]? := by
  induction l generalizing s with
  | nil => rfl
  | cons pf rest ih =>
    rcases pf with ⟨pid, fid⟩
    simp only [List.map_cons, List.mem_cons, not_or] at hq
    have h2 := flushFrame_disk_ne s fid pid q hq.1
    rcases hff : s.flushFrame fid pid with ⟨er | u, s'⟩
    · rw [flushList_cons_error s pid fid rest er s' hff]
      rw [hff] at h2
      exact h2
    · rw [flushList_cons_ok s pid fid rest s' hff]
      rw [hff] at h2
      rw [ih s' (by simpa using hq.2)]
      exact h2

/-- Claim C10: when flushing of one page-table entry fails during
`flush_all_pages`, the call returns that error at once with the state left
as it stood after the earlier flushes, and every entry later in the
iteration order is untouched: its frame (dirty flag included) and its disk
bytes stay exactly as before the call. -/
theorem flush_all_stops_at_first_error (s : BPM) (l1 l2 : List (Nat × Nat))
    (pid fid : Nat) (e : Error)
    (hpt : s.pageTable = l1 ++ (pid, fid) :: l2)
    (hok : (s.flushList l1).1 = .ok ())
    (hfail : ((s.flushList l1).2.flushFrame fid pid).1 = .error e) :
    s.flushAllPages.1 = .error e ∧
    s.flushAllPages.2 = (s.flushList l1).2 ∧
    ∀ qg ∈ l2, qg.2 ∉ l1.map Prod.snd → qg.1 ∉ l1.map Prod.fst →
      s.flushAllPages.2.frames qg.2 = s.frames qg.2 ∧
      s.flushAllPages.2.disk.pages[qg.1]? = s.disk.pages[qg.1]? := by
  have hfe : ((s.flushList l1).2.flushFrame fid pid).2 = (s.flushList l1).2 :=
    flushFrame_error_eq (s.flushList l1).2 fid pid e hfail
  have hfull : (s.flushList l1).2.flushFrame fid pid =
      (.error e, (s.flushList l1).2) :=
    Prod.ext hfail hfe
  have hfa : s.flushAllPages = (.error e, (s.flushList l1).2) := by
    unfold BPM.flushAllPages
    rw [hpt, flushList_append_ok l1 s ((pid, fid) :: l2) hok]
    exact flushList_cons_error (s.flushList l1).2 pid fid l2 e
      (s.flushList l1).2 hfull
  rw [hfa]
  refine ⟨rfl, rfl, ?_⟩
  intro qg _ hg2 hg1
  exact ⟨flushList_frames_ne l1 s qg.2 hg2, flushList_disk_ne l1 s qg.1 hg1⟩

/-- A two-page pool, both pages dirty, where only the write of page 0
fails. -/
def c10State : BPM :=
  { poolSize := 2,
    frames := fun i =>
      { data := pageZero, pageId := some i, pinCount := 0, dirty := true },
    pageTable := [(0, 0), (1, 1)],
    freeList := [],
    replacer := { queue := [0, 1], inQueue := {0, 1}, evictable := {0, 1} },
    disk := { pages := [pageZero, pageZero], failWrite := fun q => q == 0 } }

/-- Witness for C10: with the first entry failing, page 1 keeps its dirty
frame and its disk bytes. -/
theorem flush_all_stops_witness :
    c10State.flushAllPages.1 = .error .Io ∧
    c10State.flushAllPages.2.frames 1 = c10State.frames 1 ∧
    c10State.flushAllPages.2.disk.pages[1]? = c10State.disk.pages[1]? := by
  have h := flush_all_stops_at_first_error c10State [] [(1, 1)] 0 0 .Io
    rfl rfl (by decide)
  have h4 := h.2.2 (1, 1) (by decide) (by decide) (by decide)
  exact ⟨h.1, h4.1, h4.2⟩

/-! ## Claim C6: bytes round-trip through the pool, eviction included -/

theorem lookup_ptInsert (t : List (Nat × Nat)) (pid fid : Nat) :
    (ptInsert t pid fid).lookup pid = some fid := by
  unfold ptInsert
  rw [List.lookup_cons]
  simp

theorem handleCacheMiss_ok (s : BPM) (p fid : Nat) (s1 : BPM)
    (h : s.handleCacheMiss p = (.ok fid, s1)) :
    s1.pageTable.lookup p = some fid ∧ 1 ≤ (s1.frames fid).pinCount := by
  unfold BPM.handleCacheMiss at h
  rcases hg : s.getFreeFrame with ⟨er | f2, sg⟩
  · simp only [hg] at h
    simp at h
  · simp only [hg] at h
    rcases hr : sg.disk.readPage p with er | data
    · simp only [hr] at h
      simp at h
    · simp only [hr, Prod.mk.injEq, Except.ok.injEq] at h
      obtain ⟨hfid, hs1⟩ := h
      subst hfid
      rw [← hs1]
      constructor
      · exact lookup_ptInsert sg.pageTable p f2
      · simp [BPM.setFrame]

theorem handleCacheHit_frames (s : BPM) (fid : Nat) :
    ((s.handleCacheHit fid).frames fid).data = (s.frames fid).data ∧
    1 ≤ ((s.handleCacheHit fid).frames fid).pinCount ∧
    (s.handleCacheHit fid).pageTable = s.pageTable := by
  refine ⟨?_, ?_, rfl⟩
  · simp [BPM.handleCacheHit, BPM.setFrame, Frame.pin]
  · simp [BPM.handleCacheHit, BPM.setFrame, Frame.pin]

theorem fetchPageInternal_ok (s : BPM) (p fid : Nat) (s1 : BPM)
    (h : s.fetchPageInternal p = (.ok fid, s1)) :
    s1.pageTable.lookup p = some fid ∧ 1 ≤ (s1.frames fid).pinCount := by
  unfold BPM.fetchPageInternal at h
  rcases hl : s.pageTable.lookup p with _ | fid0
  · simp only [hl] at h
    exact handleCacheMiss_ok s p fid s1 h
  · simp only [hl, Prod.mk.injEq, Except.ok.injEq] at h
    obtain ⟨hfid, hs1⟩ := h
    subst hfid
    rw [← hs1]
    exact ⟨hl, (handleCacheHit_frames s fid0).2.1⟩

theorem evictPage_dirty_ok_facts (s : BPM) (fid pid : Nat) (dm' : DiskManager)
    (hev : s.replacer.evict.1 = some fid)
    (hd : (s.frames fid).dirty = true)
    (hpid : (s.frames fid).pageId = some pid)
    (hw : s.disk.writePage pid (s.frames fid).data = .ok dm') :
    s.evictPage.1 = .ok fid ∧
    s.evictPage.2.disk = dm' ∧
    s.evictPage.2.pageTable = ptRemove s.pageTable pid ∧
    s.evictPage.2.freeList = s.freeList := by
  have hpair : s.replacer.evict = (some fid, s.replacer.evict.2) := by
    rw [← hev]
  have hff := flushFrame_dirty_ok { s with replacer := s.replacer.evict.2 }
    fid pid dm' hd hw
  unfold BPM.evictPage
  rw [hpair]
  simp only [hd, hpid, hff]
  simp [BPM.setFrame]

theorem readPage_of_getElem (dm : DiskManager) (pid : Nat) (B : List Nat)
    (h : dm.pages[pid]? = some B) : dm.readPage pid = .ok B := by
  have hlt : pid < dm.pages.length := by
    by_contra hge
    rw [List.getElem?_eq_none (by omega)] at h
    cases h
  unfold DiskManager.readPage
  rw [dif_pos hlt]
  have hsome : dm.pages[pid]? = some dm.pages[pid] := List.getElem?_eq_getElem hlt
  rw [hsome] at h
  simp only [Option.some.injEq] at h
  rw [← h]
  rfl

/-- Claim C6: bytes written through a write guard survive a drop and a
re-fetch.  First conjunct (R1): after a successful `fetch_page_write`,
writing bytes `B`, dropping the guard and fetching the page for read
returns the same frame with bytes `B`.  Second conjunct (I7): when a dirty
frame holding bytes `B` for page `pid` is evicted and the write-back
succeeds, the page leaves the table, the disk now reads back `B`, and a
subsequent fetch (here with a free frame available, so the reload is from
disk) returns bytes `B`. -/
theorem page_roundtrip :
    (∀ (s : BPM) (p : Nat) (B : List Nat) (fid : Nat) (s1 : BPM),
      s.fetchPageWrite p = (.ok fid, s1) →
      ∃ s3, (s1.writeData fid B).unpinPage fid true = some s3 ∧
        (s3.fetchPageRead p).1 = .ok fid ∧
        ((s3.fetchPageRead p).2.frames fid).data = B) ∧
    (∀ (s : BPM) (fid pid : Nat) (B : List Nat) (dm' : DiskManager),
      s.replacer.evict.1 = some fid →
      (s.frames fid).dirty = true →
      (s.frames fid).pageId = some pid →
      (s.frames fid).data = B →
      s.disk.writePage pid (s.frames fid).data = .ok dm' →
      s.evictPage.1 = .ok fid ∧
      s.evictPage.2.pageTable.lookup pid = none ∧
      s.evictPage.2.disk.readPage pid = .ok B ∧
      (∀ f2 rest, s.evictPage.2.freeList = f2 :: rest →
        (s.evictPage.2.fetchPageRead pid).1 = .ok f2 ∧
        ((s.evictPage.2.fetchPageRead pid).2.frames f2).data = B)) := by
  constructor
  · intro s p B fid s1 hfw
    obtain ⟨hlk, hpin⟩ := fetchPageInternal_ok s p fid s1 hfw
    have hpin2 : 1 ≤ ((s1.writeData fid B).frames fid).pinCount := by
      simpa [BPM.writeData, BPM.setFrame] using hpin
    obtain ⟨s3, hs3, _, _, hdata3, _, htable3, _⟩ :=
      unpinPage_some (s1.writeData fid B) fid true hpin2
    have hlk3 : s3.pageTable.lookup p = some fid := by
      rw [htable3]
      exact hlk
    have hdataB : (s3.frames fid).data = B := by
      rw [hdata3]
      simp [BPM.writeData, BPM.setFrame]
    have hfetch : s3.fetchPageRead p = (.ok fid, s3.handleCacheHit fid) := by
      unfold BPM.fetchPageRead BPM.fetchPageInternal
      rw [hlk3]
    refine ⟨s3, hs3, ?_, ?_⟩
    · rw [hfetch]
    · rw [hfetch]
      show ((s3.handleCacheHit fid).frames fid).data = B
      rw [(handleCacheHit_frames s3 fid).1]
      exact hdataB
  · intro s fid pid B dm' hev hd hpid hdata hw
    obtain ⟨hfst, hdisk, htable, _⟩ :=
      evictPage_dirty_ok_facts s fid pid dm' hev hd hpid hw
    have hlknone : s.evictPage.2.pageTable.lookup pid = none := by
      rw [htable]
      exact lookup_ptRemove s.pageTable pid
    obtain ⟨hlt, hpages⟩ := writePage_ok_eq s.disk pid _ dm' hw
    have hget : dm'.pages[pid]? = some B := by
      rw [hpages, ← hdata]
      exact List.getElem?_set_self hlt
    have hread : s.evictPage.2.disk.readPage pid = .ok B := by
      rw [hdisk]
      exact readPage_of_getElem dm' pid B hget
    refine ⟨hfst, hlknone, hread, ?_⟩
    intro f2 rest hfl
    have hmiss : s.evictPage.2.fetchPageRead pid =
        s.evictPage.2.handleCacheMiss pid := by
      unfold BPM.fetchPageRead BPM.fetchPageInternal
      rw [hlknone]
    have hgf := getFreeFrame_cons s.evictPage.2 f2 rest hfl
    rw [hmiss]
    unfold BPM.handleCacheMiss
    simp only [hgf, hread]
    constructor
    · trivial
    · simp [BPM.setFrame]

/-- Witness for C6 on a concrete pool of two frames: page 0 is written with
byte 42, dropped and re-fetched; then a dirty one-frame pool is evicted and
re-fetched through the disk. -/
def c6Bytes : List Nat := 42 :: List.replicate (PAGE_SIZE - 1) 0

def c6State : BPM :=
  { poolSize := 2,
    frames := fun _ => Frame.new,
    pageTable := [],
    freeList := [1, 0],
    replacer := FifoReplacer.new,
    disk := { pages := [pageZero], failWrite := fun _ => false } }

def c6EvState : BPM :=
  { poolSize := 2,
    frames := fun i =>
      if i = 0 then
        { data := c6Bytes, pageId := some 0, pinCount := 0, dirty := true }
      else Frame.new,
    pageTable := [(0, 0)],
    freeList := [1],
    replacer := { queue := [0], inQueue := {0}, evictable := {0} },
    disk := { pages := [pageZero], failWrite := fun _ => false } }

theorem page_roundtrip_witness :
    (∃ s3, ((c6State.fetchPageWrite 0).2.writeData 1 c6Bytes).unpinPage 1 true =
        some s3 ∧
      (s3.fetchPageRead 0).1 = .ok 1 ∧
      ((s3.fetchPageRead 0).2.frames 1).data = c6Bytes) ∧
    (c6EvState.evictPage.1 = .ok 0 ∧
      c6EvState.evictPage.2.pageTable.lookup 0 = none ∧
      c6EvState.evictPage.2.disk.readPage 0 = .ok c6Bytes ∧
      ((c6EvState.evictPage.2.fetchPageRead 0).1 = .ok 1 ∧
        ((c6EvState.evictPage.2.fetchPageRead 0).2.frames 1).data = c6Bytes)) := by
  constructor
  · exact page_roundtrip.1 c6State 0 c6Bytes 1 (c6State.fetchPageWrite 0).2
      (by rfl)
  · have h := page_roundtrip.2 c6EvState 0 0 c6Bytes
      { pages := [c6Bytes], failWrite := fun _ => false }
      (by decide) (by rfl) (by rfl) (by rfl) (by rfl)
    exact ⟨h.1, h.2.1, h.2.2.1, h.2.2.2 1 [] (by rfl)⟩

end InterchangeDB
